import Mathlib

/-!
Shallow embedding of the multi-language subtitle generation pipeline of this
repository (`src/app/transcribe.py`, plus the requested-language parsing of
`src/app/main.py`), together with theorems settling the behavioural claims
about it.

Modelling conventions:
* Python floats are modelled as exact rationals (`ℚ`); the concrete inputs we
  evaluate on are dyadic rationals that are exactly representable as doubles,
  so the modelled arithmetic coincides with the float arithmetic there.
* The external capabilities are parameters: the ASR (whisper) model is an
  `Option (String → Option WhisperResult)` (outer `none` = library absent,
  inner `none` = the transcription call raises) and the translator is an
  `Option (String → Option String)` (outer `none` = `GoogleTranslator is None`,
  inner `none` = that translation call raises).
* Raising a Python exception is `Except.error ()`; file writes are collected
  in an ordered log of `(path, data)` pairs; the `json.dump` serialization of
  the manifest is treated as opaque, so a manifest file carries the structured
  `Manifest` value it would serialize.
* Python `//` and `%` have floor semantics; every divisor the code uses is
  positive, for which they coincide with `Int.ediv`/`Int.emod`.
* Integer string formatting (`f"{n:02d}"` etc.) is modelled for the
  nonnegative values that arise under the claims' nonnegative-seconds scope.
* Python's `str.strip`, `str.replace` and `str.split` are modelled by
  executable structural recursions over `List Char` (`pyStrip`, `pyReplace`,
  `pySplit` below) so that concrete runs evaluate inside the kernel.
-/

namespace KSI

/-- One subtitle segment `{"start": float, "end": float, "text": str}`.
`end` is a Lean keyword, so the field is named `end_`. -/
structure Seg where
  start : ℚ
  end_ : ℚ
  text : String
  deriving Repr, DecidableEq

/-- Python `int(x)` on a float: truncation toward zero. -/
def pyInt (q : ℚ) : ℤ :=
  if 0 ≤ q then ⌊q⌋ else ⌈q⌉

/-- Python `round(x)` to an integer: round half to even (banker's rounding). -/
def pyRound (q : ℚ) : ℤ :=
  let f : ℤ := ⌊q⌋
  if q - (f : ℚ) < 1/2 then f
  else if 1/2 < q - (f : ℚ) then f + 1
  else if Int.emod f 2 = 0 then f else f + 1

/-- Python `f"{n:0{w}d}"` for a nonnegative integer: decimal digits left-padded
with zeros to a minimum width `w`. -/
def pad0 (w : Nat) (n : Nat) : String :=
  let s := Nat.repr n
  String.mk (List.replicate (w - s.length) '0') ++ s

/-- `format_timestamp` from `src/app/transcribe.py`:
`ms = int(round((seconds - int(seconds)) * 1000))`, `s = int(seconds) % 60`,
`m = (int(seconds) // 60) % 60`, `h = int(seconds) // 3600`, rendered as
`f"{h:02d}:{m:02d}:{s:02d}.{ms:03d}"`. -/
def format_timestamp (seconds : ℚ) : String :=
  let t := pyInt seconds
  let ms := (pyRound ((seconds - (t : ℚ)) * 1000)).toNat
  let s := (Int.emod t 60).toNat
  let m := (Int.emod (Int.ediv t 60) 60).toNat
  let h := (Int.ediv t 3600).toNat
  pad0 2 h ++ ":" ++ pad0 2 m ++ ":" ++ pad0 2 s ++ "." ++ pad0 3 ms

/-- Python `str.strip()`: remove leading and trailing whitespace. -/
def pyStrip (s : String) : String :=
  String.mk (((s.data.dropWhile Char.isWhitespace).reverse.dropWhile
    Char.isWhitespace).reverse)

/-- Recursive worker for `pyReplace`; the fuel argument (instantiated with the
length of the string, which bounds the recursion depth for a nonempty pattern)
makes the recursion structural. -/
def replaceGo (pat rep : List Char) : Nat → List Char → List Char
  | _, [] => []
  | 0, l => l
  | fuel+1, c :: rest =>
    if pat.isPrefixOf (c :: rest) then
      rep ++ replaceGo pat rep fuel ((c :: rest).drop pat.length)
    else
      c :: replaceGo pat rep fuel rest

/-- Python `s.replace(pat, rep)`: replace non-overlapping occurrences left to
right. -/
def pyReplace (s pat rep : String) : String :=
  String.mk (replaceGo pat.data rep.data s.data.length s.data)

/-- Recursive worker for `pySplit`, with the same fuel discipline as
`replaceGo`; `acc` holds the current field in reverse. -/
def splitGo (sep : List Char) : Nat → List Char → List Char → List (List Char)
  | _, acc, [] => [acc.reverse]
  | 0, acc, l => [acc.reverse ++ l]
  | fuel+1, acc, c :: rest =>
    if sep.isPrefixOf (c :: rest) then
      acc.reverse :: splitGo sep fuel [] ((c :: rest).drop sep.length)
    else
      splitGo sep fuel (c :: acc) rest

/-- Python `s.split(sep)` for a nonempty separator: e.g. `"".split(sep) = [""]`
and `"a|||b".split("|||") = ["a", "b"]`. -/
def pySplit (s sep : String) : List String :=
  (splitGo sep.data s.data.length [] s.data).map String.mk

/-- The text written for one segment by `write_vtt`'s loop body:
`f"{start} --> {end}\n{text}\n\n"` with
`text = seg["text"].strip().replace("-->", "→")`. -/
def vttBlock (seg : Seg) : String :=
  format_timestamp seg.start ++ " --> " ++ format_timestamp seg.end_ ++ "\n" ++
    pyReplace (pyStrip seg.text) "-->" "→" ++ "\n\n"

/-- The full file content produced by `write_vtt`: the `WEBVTT` header plus a
blank line, then the blocks appended one by one in segment order. -/
def vtt_content (segments : List Seg) : String :=
  segments.foldl (fun acc seg => acc ++ vttBlock seg) "WEBVTT\n\n"

instance exceptDecidableEq {ε α : Type} [DecidableEq ε] [DecidableEq α] :
    DecidableEq (Except ε α) := fun x y =>
  match x, y with
  | .ok a, .ok b => decidable_of_iff (a = b) (by simp)
  | .error a, .error b => decidable_of_iff (a = b) (by simp)
  | .ok _, .error _ => isFalse fun h => Except.noConfusion h
  | .error _, .ok _ => isFalse fun h => Except.noConfusion h

/-- `SUPPORTED_LANGS` from `src/app/transcribe.py` (STEP 3). -/
def SUPPORTED_LANGS : List String :=
  ["en", "hi", "kn", "te", "ta", "ml", "mr", "gu", "bn", "pa", "or", "ur"]

/-- The `for s, t in zip(segments, parts): out.append({...})` loop closing
`translate_segments`: pair each input segment with its translated text,
keeping `start` and `end`. -/
def rebuild (segs : List Seg) (parts : List String) : List Seg :=
  (segs.zip parts).map fun sp =>
    { start := sp.1.start, end_ := sp.1.end_, text := sp.2 }

/-- `translate_segments` from `src/app/transcribe.py`. The translator
capability `tr` is `none` when `GoogleTranslator is None`; a call `t s = none`
means that `translator.translate(s)` raised. The result carries the number of
translator invocations made; `Except.error ()` is the `RuntimeError` raised
when the capability is absent. -/
def translate_segments (tr : Option (String → Option String))
    (segments : List Seg) (target_lang : String) :
    Except Unit (List Seg × Nat) :=
  if target_lang = "en" then
    .ok (segments, 0)
  else
    match tr with
    | none => .error ()
    | some t =>
      let delim := " ||| "
      let joined := String.intercalate delim (segments.map (·.text))
      let fallbackParts := segments.map fun s => (t s.text).getD s.text
      match t joined with
      | some translated =>
        let parts := (pySplit translated "|||").map pyStrip
        if parts.length = segments.length then
          .ok (rebuild segments parts, 1)
        else
          .ok (rebuild segments fallbackParts, 1 + segments.length)
      | none =>
        .ok (rebuild segments fallbackParts, 1 + segments.length)

/-- The condition under which the batch ("joined") translation attempt of
`translate_segments` fails: the single batched call raises, or the translated
text does not split back into one part per segment. -/
def batchFails (t : String → Option String) (segs : List Seg) : Prop :=
  match t (String.intercalate " ||| " (segs.map (·.text))) with
  | none => True
  | some translated =>
    ((pySplit translated "|||").map pyStrip).length ≠ segs.length

/-- The value returned by `model.transcribe(...)`: a `"segments"` list and a
whole-file `"text"` fallback. -/
structure WhisperResult where
  segments : List Seg
  text : String
  deriving Repr, DecidableEq

/-- `transcribe_core` from `src/app/transcribe.py`. The capability `w` is
`none` when the whisper import failed (`RuntimeError`); `model audio = none`
means the transcription call raised. The second component counts ASR
invocations. -/
def transcribe_core (w : Option (String → Option WhisperResult))
    (audio_path : String) : Except Unit (List Seg) × Nat :=
  match w with
  | none => (.error (), 0)
  | some model =>
    match model audio_path with
    | none => (.error (), 1)
    | some result =>
      let segments := result.segments
      let segments :=
        if segments.isEmpty && result.text != "" then
          [{ start := 0, end_ := 1/100, text := result.text }]
        else segments
      (.ok segments, 1)

/-- The manifest object `{"video_id": ..., "media_file": ..., "langs": ...}`
written by `transcribe_to_vtt_many`; its `json.dump` serialization is treated
as opaque. -/
structure Manifest where
  video_id : String
  media_file : String
  langs : List String
  deriving Repr, DecidableEq

/-- The data written to one file by the orchestrator: either VTT text (from
`write_vtt`) or the manifest object. -/
inductive FileData where
  | vttFile (content : String)
  | manifestFile (m : Manifest)
  deriving Repr, DecidableEq

/-- Whether a written file is the manifest. -/
def FileData.isManifest : FileData → Bool
  | .manifestFile _ => true
  | .vttFile _ => false

/-- Python dict assignment `d[k] = v`: an existing key keeps its position and
gets the new value, a new key is appended. -/
def dictInsert (d : List (String × String)) (k v : String) :
    List (String × String) :=
  if d.any (fun p => p.1 == k) then
    d.map fun p => if p.1 == k then (k, v) else p
  else
    d ++ [(k, v)]

/-- `os.path.basename`: the final path component. -/
def basename (p : String) : String :=
  (pySplit p "/").getLastD ""

/-- `pathlib.Path(p).stem`: the final component without its last suffix. -/
def pathStem (p : String) : String :=
  let name := basename p
  let parts := pySplit name "."
  if parts.length ≤ 1 then name else String.intercalate "." parts.dropLast

/-- `vtt_dir / f"{video_id}.{code}.vtt"`. -/
def trackPath (vtt_dir video_id code : String) : String :=
  vtt_dir ++ "/" ++ video_id ++ "." ++ code ++ ".vtt"

/-- `vtt_dir / f"{video_id}.manifest.json"`. -/
def manifestPath (vtt_dir video_id : String) : String :=
  vtt_dir ++ "/" ++ video_id ++ ".manifest.json"

/-- State threaded through the per-language loop of `transcribe_to_vtt_many`:
the `out` dict and the ordered log of files written so far. -/
structure LoopAcc where
  out : List (String × String)
  files : List (String × FileData)
  deriving Repr, DecidableEq

/-- The segments serialized for one language: the `try/except` around the
translation call — `base_segments` directly for `"en"`, the translation
otherwise, falling back to `base_segments` if `translate_segments` raised. -/
def chooseSegs (tr : Option (String → Option String)) (base : List Seg)
    (code : String) : List Seg :=
  if code = "en" then base
  else
    match translate_segments tr base code with
    | .ok (s, _) => s
    | .error _ => base

/-- One iteration of the `for code in langs:` loop of
`transcribe_to_vtt_many`: skip unsupported codes; otherwise translate (with
fallback), write the track file, and record the path in `out`. -/
def processLang (tr : Option (String → Option String)) (base : List Seg)
    (vtt_dir video_id : String) (acc : LoopAcc) (code : String) : LoopAcc :=
  if code ∈ SUPPORTED_LANGS then
    let segs := chooseSegs tr base code
    let path := trackPath vtt_dir video_id code
    { out := dictInsert acc.out code path,
      files := acc.files ++ [(path, .vttFile (vtt_content segs))] }
  else acc

/-- The observable outcome of one `transcribe_to_vtt_many` run: the ordered
log of files written, the number of ASR invocations, and the returned
`{lang: path}` dict (or the propagated exception). -/
structure RunTrace where
  files : List (String × FileData)
  asrCalls : Nat
  result : Except Unit (List (String × String))
  deriving Repr, DecidableEq

/-- `video_id` defaulting: `if video_id is None: video_id = p.stem`. -/
def resolvedId (media_path : String) (video_id : Option String) : String :=
  video_id.getD (pathStem media_path)

/-- `transcribe_to_vtt_many` from `src/app/transcribe.py`: one ASR call, then
the per-language loop, then the manifest write. An ASR failure propagates
before any file is written. -/
def transcribe_to_vtt_many (w : Option (String → Option WhisperResult))
    (tr : Option (String → Option String)) (media_path vtt_dir : String)
    (langs : List String) (video_id : Option String) : RunTrace :=
  let vid := resolvedId media_path video_id
  let core := transcribe_core w media_path
  match core.1 with
  | .error e => { files := [], asrCalls := core.2, result := .error e }
  | .ok base_segments =>
    let acc := langs.foldl (processLang tr base_segments vtt_dir vid)
      { out := [], files := [] }
    let manifest : Manifest :=
      { video_id := vid, media_file := basename media_path,
        langs := acc.out.map Prod.fst }
    { files := acc.files ++ [(manifestPath vtt_dir vid, .manifestFile manifest)],
      asrCalls := core.2,
      result := .ok acc.out }

/-- `SUPPORTED_LANGS` from `src/app/main.py`: the code → display-name table. -/
def MAIN_SUPPORTED_LANGS : List (String × String) :=
  [("en", "English"), ("hi", "Hindi"), ("kn", "Kannada"), ("te", "Telugu"),
   ("ta", "Tamil"), ("ml", "Malayalam"), ("mr", "Marathi"), ("gu", "Gujarati"),
   ("bn", "Bengali"), ("pa", "Punjabi"), ("or", "Odia"), ("ur", "Urdu")]

/-- The keys of `main.py`'s `SUPPORTED_LANGS` dict, in insertion order. -/
def mainLangKeys : List String := MAIN_SUPPORTED_LANGS.map Prod.fst

/-- The `if not requested: requested = list(SUPPORTED_LANGS.keys())` fallback
of `upload_video` in `src/app/main.py`. -/
def parseRequested (requested : List String) : List String :=
  if requested.isEmpty then mainLangKeys else requested

/-- The `# parse langs` block of `upload_video` in `src/app/main.py`. The
guard `langs.getD "" ≠ ""` is Python's truthiness test `if langs:` on an
`Optional[str]` (false for `None` and for the empty string); otherwise split
on commas, strip, keep known codes, and fall back to all supported codes if
nothing survives. -/
def parse_langs (langs : Option String) : List String :=
  if langs.getD "" ≠ "" then
    parseRequested (((pySplit (langs.getD "") ",").map pyStrip).filter
      (fun c => mainLangKeys.contains c))
  else mainLangKeys

/-!
Theorems. Everything below settles the behavioural claims; the definitions
above are the embedding of the source.
-/

/-- Evaluation helper: `pyInt` at a value lying in `[z, z+1)` for `z ≥ 0`. -/
theorem pyInt_eval (q : ℚ) (z : ℤ) (h0 : 0 ≤ q) (h1 : (z : ℚ) ≤ q)
    (h2 : q < z + 1) : pyInt q = z := by
  unfold pyInt
  rw [if_pos h0]
  exact Int.floor_eq_iff.mpr ⟨h1, h2⟩

/-- Evaluation helper: `pyRound` when the fractional part is below one half. -/
theorem pyRound_eval_lt (q : ℚ) (z : ℤ) (h1 : (z : ℚ) ≤ q)
    (h2 : q - (z : ℚ) < 1/2) : pyRound q = z := by
  have hf : ⌊q⌋ = z := Int.floor_eq_iff.mpr ⟨h1, by linarith⟩
  unfold pyRound
  rw [hf, if_pos h2]

/-- Evaluation helper: `pyRound` when the fractional part is above one half. -/
theorem pyRound_eval_gt (q : ℚ) (z : ℤ) (h1 : 1/2 < q - (z : ℚ))
    (h2 : q < (z : ℚ) + 1) : pyRound q = z + 1 := by
  have hf : ⌊q⌋ = z := Int.floor_eq_iff.mpr ⟨by linarith, by linarith⟩
  unfold pyRound
  rw [hf, if_neg (by linarith), if_pos h1]

/-- Evaluation helper: unfold `format_timestamp` once the two rational
computations are done. -/
theorem format_timestamp_eq (q : ℚ) (t ms : ℤ) (ht : pyInt q = t)
    (hms : pyRound ((q - (t : ℚ)) * 1000) = ms) :
    format_timestamp q =
      pad0 2 (Int.ediv t 3600).toNat ++ ":" ++
      pad0 2 (Int.emod (Int.ediv t 60) 60).toNat ++ ":" ++
      pad0 2 (Int.emod t 60).toNat ++ "." ++ pad0 3 ms.toNat := by
  simp only [format_timestamp, ht, hms]

/-- `format_timestamp` at `0.0` seconds. -/
theorem format_timestamp_zero : format_timestamp (0 : ℚ) = "00:00:00.000" := by
  have ht : pyInt (0 : ℚ) = 0 :=
    pyInt_eval _ _ (by norm_num) (by norm_num) (by norm_num)
  have hms : pyRound (((0 : ℚ) - ((0 : ℤ) : ℚ)) * 1000) = 0 :=
    pyRound_eval_lt _ _ (by norm_num) (by norm_num)
  rw [format_timestamp_eq _ _ _ ht hms]
  decide

/-- `format_timestamp` at `1.5` seconds. -/
theorem format_timestamp_three_halves :
    format_timestamp (3/2 : ℚ) = "00:00:01.500" := by
  have ht : pyInt (3/2 : ℚ) = 1 :=
    pyInt_eval _ _ (by norm_num) (by norm_num) (by norm_num)
  have hms : pyRound (((3/2 : ℚ) - ((1 : ℤ) : ℚ)) * 1000) = 500 :=
    pyRound_eval_lt _ _ (by norm_num) (by norm_num)
  rw [format_timestamp_eq _ _ _ ht hms]
  decide

/-- `format_timestamp` at `3.0` seconds. -/
theorem format_timestamp_three : format_timestamp (3 : ℚ) = "00:00:03.000" := by
  have ht : pyInt (3 : ℚ) = 3 :=
    pyInt_eval _ _ (by norm_num) (by norm_num) (by norm_num)
  have hms : pyRound (((3 : ℚ) - ((3 : ℤ) : ℚ)) * 1000) = 0 :=
    pyRound_eval_lt _ _ (by norm_num) (by norm_num)
  rw [format_timestamp_eq _ _ _ ht hms]
  decide


/-- `rebuild` with a parts list of matching length preserves length and the
`start`/`end` of each segment, installing the `i`-th part as the `i`-th text. -/
theorem rebuild_spec (segs : List Seg) (parts : List String)
    (hp : parts.length = segs.length) :
    (rebuild segs parts).length = segs.length ∧
    ∀ i (hi : i < segs.length) (hi' : i < (rebuild segs parts).length),
      ((rebuild segs parts).get ⟨i, hi'⟩).start = (segs.get ⟨i, hi⟩).start ∧
      ((rebuild segs parts).get ⟨i, hi'⟩).end_ = (segs.get ⟨i, hi⟩).end_ := by
  constructor
  · simp [rebuild, List.length_zip, hp]
  · intro i hi hi'
    simp [rebuild, List.getElem_zip]

/-- `rebuild` against a pointwise-computed parts list is a pointwise map. -/
theorem rebuild_map (segs : List Seg) (f : Seg → String) :
    rebuild segs (segs.map f) =
      segs.map fun s => { start := s.start, end_ := s.end_, text := f s } := by
  induction segs with
  | nil => rfl
  | cons s ss ih =>
    simp only [rebuild, List.map_cons, List.zip_cons_cons] at ih ⊢
    rw [ih]

/-- Mapping each segment to a copy of itself is the identity (structure eta). -/
theorem map_eta (segs : List Seg) :
    (segs.map fun s =>
      ({ start := s.start, end_ := s.end_, text := s.text } : Seg)) = segs := by
  induction segs with
  | nil => rfl
  | cons s ss ih => simp only [List.map_cons, ih]

/-- When the batch attempt fails, `translate_segments` takes the per-segment
fallback: each text is translated individually, keeping the original on a
per-call failure, at the cost of `1 + n` translator invocations. -/
theorem translate_segments_fallback (t : String → Option String)
    (segs : List Seg) (target : String) (hne : target ≠ "en")
    (hb : batchFails t segs) :
    translate_segments (some t) segs target =
      .ok (segs.map fun s =>
        { start := s.start, end_ := s.end_, text := (t s.text).getD s.text },
        1 + segs.length) := by
  unfold translate_segments
  rw [if_neg hne]
  unfold batchFails at hb
  cases ht : t (String.intercalate " ||| " (segs.map (·.text))) with
  | none => simp only [ht, rebuild_map]
  | some translated =>
    rw [ht] at hb
    simp only [ht]
    rw [if_neg hb, rebuild_map]

/-- When every translator call raises, the per-segment fallback returns the
input segments unchanged. -/
theorem translate_segments_all_fail (t : String → Option String)
    (segs : List Seg) (target : String) (hne : target ≠ "en")
    (hall : ∀ s, t s = none) :
    translate_segments (some t) segs target = .ok (segs, 1 + segs.length) := by
  have hb : batchFails t segs := by
    unfold batchFails
    rw [hall]
    trivial
  rw [translate_segments_fallback t segs target hne hb]
  simp only [hall, Option.getD_none, map_eta]

/-- Claim C5: for the pass-through language `"en"`, `translate_segments`
returns its input unchanged and performs zero translator invocations. -/
theorem claim5_passthrough_identity (tr : Option (String → Option String))
    (segs : List Seg) : translate_segments tr segs "en" = .ok (segs, 0) := by
  unfold translate_segments
  rw [if_pos rfl]

/-- Claim C4: whenever `translate_segments` returns (rather than raising), the
output has the same length as the input and the `i`-th output segment keeps
the `i`-th input segment's `start` and `end`. -/
theorem claim4_translate_preserves_timing (tr : Option (String → Option String))
    (segs : List Seg) (lang : String) (out : List Seg) (n : Nat)
    (h : translate_segments tr segs lang = .ok (out, n)) :
    out.length = segs.length ∧
    ∀ i (hi : i < segs.length) (hi' : i < out.length),
      (out.get ⟨i, hi'⟩).start = (segs.get ⟨i, hi⟩).start ∧
      (out.get ⟨i, hi'⟩).end_ = (segs.get ⟨i, hi⟩).end_ := by
  unfold translate_segments at h
  by_cases hlang : lang = "en"
  · rw [if_pos hlang] at h
    obtain ⟨rfl, rfl⟩ : segs = out ∧ 0 = n := by
      injection h with h1
      injection h1 with h2 h3
      exact ⟨h2, h3⟩
    exact ⟨rfl, fun i hi hi' => ⟨rfl, rfl⟩⟩
  · rw [if_neg hlang] at h
    cases tr with
    | none => cases h
    | some t =>
      simp only at h
      cases ht : t (String.intercalate " ||| " (segs.map (·.text))) with
      | none =>
        rw [ht] at h
        obtain ⟨rfl, rfl⟩ :
            rebuild segs (segs.map fun s => (t s.text).getD s.text) = out ∧
              1 + segs.length = n := by
          injection h with h1
          injection h1 with h2 h3
          exact ⟨h2, h3⟩
        exact rebuild_spec segs _ (List.length_map _ _)
      | some translated =>
        simp only [ht] at h
        by_cases hlen :
            ((pySplit translated "|||").map pyStrip).length = segs.length
        · rw [if_pos hlen] at h
          obtain ⟨rfl, rfl⟩ :
              rebuild segs ((pySplit translated "|||").map pyStrip) = out ∧
                1 = n := by
            injection h with h1
            injection h1 with h2 h3
            exact ⟨h2, h3⟩
          exact rebuild_spec segs _ hlen
        · rw [if_neg hlen] at h
          obtain ⟨rfl, rfl⟩ :
              rebuild segs (segs.map fun s => (t s.text).getD s.text) = out ∧
                1 + segs.length = n := by
            injection h with h1
            injection h1 with h2 h3
            exact ⟨h2, h3⟩
          exact rebuild_spec segs _ (List.length_map _ _)

/-- Witness for C4 at a concrete input. -/
theorem claim4_witness :
    ([{ start := 0, end_ := 1, text := "a" }] : List Seg).length =
        ([{ start := 0, end_ := 1, text := "a" }] : List Seg).length ∧
      ∀ i (hi : i < ([{ start := 0, end_ := 1, text := "a" }] : List Seg).length)
        (hi' : i < ([{ start := 0, end_ := 1, text := "a" }] : List Seg).length),
        (([{ start := 0, end_ := 1, text := "a" }] : List Seg).get
            ⟨i, hi'⟩).start =
          (([{ start := 0, end_ := 1, text := "a" }] : List Seg).get
            ⟨i, hi⟩).start ∧
        (([{ start := 0, end_ := 1, text := "a" }] : List Seg).get
            ⟨i, hi'⟩).end_ =
          (([{ start := 0, end_ := 1, text := "a" }] : List Seg).get
            ⟨i, hi⟩).end_ :=
  claim4_translate_preserves_timing none
    [{ start := 0, end_ := 1, text := "a" }] "en"
    [{ start := 0, end_ := 1, text := "a" }] 0 rfl

/-- Claim C2: if the batch translation attempt fails (the call raises or the
part count after splitting mismatches), `translate_segments` falls back to
per-segment mode without raising, returns exactly as many segments as it was
given, and any segment whose individual translation raises keeps its original
text. -/
theorem claim2_batch_mismatch_fallback (t : String → Option String)
    (segs : List Seg) (target : String) (hne : target ≠ "en")
    (hb : batchFails t segs) :
    ∃ out : List Seg,
      translate_segments (some t) segs target = .ok (out, 1 + segs.length) ∧
      out.length = segs.length ∧
      ∀ i (hi : i < segs.length), t (segs.get ⟨i, hi⟩).text = none →
        out[i]? = some (segs.get ⟨i, hi⟩) := by
  refine ⟨segs.map fun s =>
    { start := s.start, end_ := s.end_, text := (t s.text).getD s.text },
    translate_segments_fallback t segs target hne hb,
    List.length_map _ _, fun i hi hfail => ?_⟩
  rw [List.getElem?_map, List.getElem?_eq_getElem hi]
  rw [List.get_eq_getElem] at hfail
  simp only [Option.map_some', hfail, Option.getD_none]
  rfl

/-- Witness for C2 at a concrete input: a translator that always raises. -/
theorem claim2_witness :
    ∃ out : List Seg,
      translate_segments (some fun _ => none)
          [{ start := 0, end_ := 1, text := "a" }] "hi" =
        .ok (out, 1 + ([{ start := 0, end_ := 1, text := "a" }] :
          List Seg).length) ∧
      out.length = ([{ start := 0, end_ := 1, text := "a" }] : List Seg).length ∧
      ∀ i (hi : i < ([{ start := 0, end_ := 1, text := "a" }] :
          List Seg).length),
        (fun _ => (none : Option String))
            (([{ start := 0, end_ := 1, text := "a" }] : List Seg).get
              ⟨i, hi⟩).text = none →
        out[i]? =
          some (([{ start := 0, end_ := 1, text := "a" }] : List Seg).get
            ⟨i, hi⟩) :=
  claim2_batch_mismatch_fallback (fun _ => none)
    [{ start := 0, end_ := 1, text := "a" }] "hi" (by decide) trivial

/-- Claim C3 (code bug evidence): at `seconds = 4095/4096` — a float exactly
representable as a double, with fractional part above `0.9995` — the rounded
millisecond value is `1000` and `format_timestamp` emits a four-digit
millisecond field, `"00:00:00.1000"`, instead of the documented
`HH:MM:SS.mmm` shape. -/
theorem claim3_format_timestamp_ms_overflow :
    format_timestamp (4095/4096 : ℚ) = "00:00:00.1000" ∧
    ("00:00:00.1000").length ≠ ("00:00:00.000").length := by
  constructor
  · have ht : pyInt (4095/4096 : ℚ) = 0 :=
      pyInt_eval _ _ (by norm_num) (by norm_num) (by norm_num)
    have hms : pyRound (((4095/4096 : ℚ) - ((0 : ℤ) : ℚ)) * 1000) = 1000 :=
      pyRound_eval_gt _ 999 (by norm_num) (by norm_num)
    rw [format_timestamp_eq _ _ _ ht hms]
    decide
  · decide

/-- Under a failing translation capability (absent, or raising on every
call), the orchestrator's per-language `try/except` falls back to the source
segments. -/
theorem chooseSegs_fail (tr : Option (String → Option String))
    (base : List Seg) (code : String)
    (hfail : tr = none ∨ ∃ t, tr = some t ∧ ∀ s, t s = none) :
    chooseSegs tr base code = base := by
  unfold chooseSegs
  by_cases hc : code = "en"
  · rw [if_pos hc]
  · rw [if_neg hc]
    rcases hfail with rfl | ⟨t, rfl, hall⟩
    · simp only [translate_segments, if_neg hc]
    · rw [translate_segments_all_fail t base code hc hall]

/-- Inserting key `k` makes `k` a key of the dict. -/
theorem dictInsert_key_self (d : List (String × String)) (k v : String) :
    k ∈ (dictInsert d k v).map Prod.fst := by
  unfold dictInsert
  split
  · next h =>
    obtain ⟨p, hp, hpk⟩ := List.any_eq_true.mp h
    refine List.mem_map.mpr ⟨(k, v), List.mem_map.mpr ⟨p, hp, ?_⟩, rfl⟩
    rw [if_pos hpk]
  · simp

/-- Inserting into the dict preserves the existing keys. -/
theorem dictInsert_keys_mono (d : List (String × String)) (k v c : String)
    (hc : c ∈ d.map Prod.fst) : c ∈ (dictInsert d k v).map Prod.fst := by
  unfold dictInsert
  split
  · rw [List.map_map]
    have hcong : ∀ p ∈ d,
        (Prod.fst ∘ fun p => if (p.1 == k) = true then (k, v) else p) p =
          Prod.fst p := by
      intro p hp
      by_cases hpk : p.1 = k
      · simp [hpk]
      · simp [hpk]
    rw [List.map_congr_left hcong]
    exact hc
  · rw [List.map_append]
    exact List.mem_append_left _ hc

/-- One loop iteration never removes an already-written file. -/
theorem processLang_files_mono (tr : Option (String → Option String))
    (base : List Seg) (d v : String) (acc : LoopAcc) (code : String)
    (x : String × FileData) (hx : x ∈ acc.files) :
    x ∈ (processLang tr base d v acc code).files := by
  unfold processLang
  split
  · exact List.mem_append_left _ hx
  · exact hx

/-- One loop iteration never removes an existing key of `out`. -/
theorem processLang_keys_mono (tr : Option (String → Option String))
    (base : List Seg) (d v : String) (acc : LoopAcc) (code c : String)
    (hc : c ∈ acc.out.map Prod.fst) :
    c ∈ (processLang tr base d v acc code).out.map Prod.fst := by
  unfold processLang
  split
  · exact dictInsert_keys_mono _ _ _ _ hc
  · exact hc

/-- The whole loop never removes an already-written file. -/
theorem foldl_files_mono (tr : Option (String → Option String))
    (base : List Seg) (d v : String) :
    ∀ (l : List String) (acc : LoopAcc) (x : String × FileData),
      x ∈ acc.files → x ∈ (l.foldl (processLang tr base d v) acc).files := by
  intro l
  induction l with
  | nil => intro acc x hx; exact hx
  | cons a as ih =>
    intro acc x hx
    exact ih _ _ (processLang_files_mono _ _ _ _ _ _ _ hx)

/-- The whole loop never removes an existing key of `out`. -/
theorem foldl_keys_mono (tr : Option (String → Option String))
    (base : List Seg) (d v : String) :
    ∀ (l : List String) (acc : LoopAcc) (c : String),
      c ∈ acc.out.map Prod.fst →
      c ∈ (l.foldl (processLang tr base d v) acc).out.map Prod.fst := by
  intro l
  induction l with
  | nil => intro acc c hc; exact hc
  | cons a as ih =>
    intro acc c hc
    exact ih _ _ (processLang_keys_mono _ _ _ _ _ _ _ hc)

/-- Processing a supported requested code writes its track file and records
its key. -/
theorem foldl_processLang_adds (tr : Option (String → Option String))
    (base : List Seg) (d v code : String) (hs : code ∈ SUPPORTED_LANGS) :
    ∀ (l : List String) (acc : LoopAcc), code ∈ l →
      (trackPath d v code,
        .vttFile (vtt_content (chooseSegs tr base code))) ∈
        (l.foldl (processLang tr base d v) acc).files ∧
      code ∈ (l.foldl (processLang tr base d v) acc).out.map Prod.fst := by
  intro l
  induction l with
  | nil => intro acc h; cases h
  | cons a as ih =>
    intro acc hmem
    rw [List.foldl_cons]
    rcases List.mem_cons.mp hmem with heq | htail
    · subst heq
      constructor
      · apply foldl_files_mono
        unfold processLang
        rw [if_pos hs]
        exact List.mem_append_right _ (List.mem_singleton.mpr rfl)
      · apply foldl_keys_mono
        unfold processLang
        rw [if_pos hs]
        exact dictInsert_key_self _ _ _
    · exact ih _ htail

/-- The loop writes no manifest file: it only appends VTT tracks. -/
theorem foldl_processLang_countP (tr : Option (String → Option String))
    (base : List Seg) (d v : String) :
    ∀ (l : List String) (acc : LoopAcc),
      ((l.foldl (processLang tr base d v) acc).files.countP
        fun f => f.2.isManifest) =
      acc.files.countP fun f => f.2.isManifest := by
  intro l
  induction l with
  | nil => intro acc; rfl
  | cons a as ih =>
    intro acc
    rw [List.foldl_cons, ih]
    unfold processLang
    split
    · simp [List.countP_append, List.countP_cons, FileData.isManifest]
    · rfl

/-- If no requested code is supported, the loop leaves the state unchanged. -/
theorem foldl_processLang_unsupported (tr : Option (String → Option String))
    (base : List Seg) (d v : String) :
    ∀ (l : List String) (acc : LoopAcc), (∀ c ∈ l, c ∉ SUPPORTED_LANGS) →
      l.foldl (processLang tr base d v) acc = acc := by
  intro l
  induction l with
  | nil => intro acc _; rfl
  | cons a as ih =>
    intro acc hall
    rw [List.foldl_cons]
    have hstep : processLang tr base d v acc a = acc := by
      unfold processLang
      rw [if_neg (hall a (List.mem_cons_self a as))]
    rw [hstep]
    exact ih acc fun c hc => hall c (List.mem_cons_of_mem _ hc)

/-- Evaluation of a run whose transcription step succeeds. -/
theorem transcribe_to_vtt_many_ok (w : Option (String → Option WhisperResult))
    (tr : Option (String → Option String)) (media d : String)
    (langs : List String) (vid : Option String) (base : List Seg) (k : Nat)
    (hcore : transcribe_core w media = (.ok base, k)) :
    transcribe_to_vtt_many w tr media d langs vid =
      { files := (langs.foldl (processLang tr base d (resolvedId media vid))
            { out := [], files := [] }).files ++
          [(manifestPath d (resolvedId media vid), .manifestFile
            { video_id := resolvedId media vid, media_file := basename media,
              langs := (langs.foldl
                (processLang tr base d (resolvedId media vid))
                { out := [], files := [] }).out.map Prod.fst })],
        asrCalls := k,
        result := .ok (langs.foldl (processLang tr base d (resolvedId media vid))
          { out := [], files := [] }).out } := by
  simp only [transcribe_to_vtt_many, hcore]

/-- Evaluation of a run whose transcription step fails. -/
theorem transcribe_to_vtt_many_err (w : Option (String → Option WhisperResult))
    (tr : Option (String → Option String)) (media d : String)
    (langs : List String) (vid : Option String) (k : Nat)
    (hcore : transcribe_core w media = (.error (), k)) :
    transcribe_to_vtt_many w tr media d langs vid =
      { files := [], asrCalls := k, result := .error () } := by
  simp only [transcribe_to_vtt_many, hcore]

/-- Claim C1: when the translation step for a supported requested language
fails (capability unavailable, or raising on every call), the run does not
raise: the language's track file is still written, containing the
source-language segments, and the language appears both in the returned
mapping and in the manifest's `langs`. -/
theorem claim1_translation_failure_degrades
    (w : Option (String → Option WhisperResult))
    (tr : Option (String → Option String)) (media d : String)
    (langs : List String) (vid : Option String) (code : String)
    (base : List Seg) (k : Nat)
    (hcore : transcribe_core w media = (.ok base, k))
    (hmem : code ∈ langs) (hsupp : code ∈ SUPPORTED_LANGS)
    (hfail : tr = none ∨ ∃ t, tr = some t ∧ ∀ s, t s = none) :
    ∃ (out : List (String × String)) (m : Manifest),
      (transcribe_to_vtt_many w tr media d langs vid).result = .ok out ∧
      code ∈ out.map Prod.fst ∧
      (trackPath d (resolvedId media vid) code, .vttFile (vtt_content base)) ∈
        (transcribe_to_vtt_many w tr media d langs vid).files ∧
      (manifestPath d (resolvedId media vid), .manifestFile m) ∈
        (transcribe_to_vtt_many w tr media d langs vid).files ∧
      code ∈ m.langs := by
  obtain ⟨hfile, hkey⟩ := foldl_processLang_adds tr base d
    (resolvedId media vid) code hsupp langs { out := [], files := [] } hmem
  rw [chooseSegs_fail tr base code hfail] at hfile
  rw [transcribe_to_vtt_many_ok w tr media d langs vid base k hcore]
  exact ⟨_, _, rfl, hkey, List.mem_append_left _ hfile,
    List.mem_append_right _ (List.mem_singleton.mpr rfl), hkey⟩

/-- Witness for C1: the translator capability is absent, yet the `"hi"` track
is written with the source segments and listed everywhere. -/
theorem claim1_witness :
    ∃ (out : List (String × String)) (m : Manifest),
      (transcribe_to_vtt_many
        (some fun _ => some { segments := [], text := "" }) none
        "u/v.mp4" "d" ["hi"] (some "vid")).result = .ok out ∧
      "hi" ∈ out.map Prod.fst ∧
      (trackPath "d" (resolvedId "u/v.mp4" (some "vid")) "hi",
        .vttFile (vtt_content [])) ∈
        (transcribe_to_vtt_many
          (some fun _ => some { segments := [], text := "" }) none
          "u/v.mp4" "d" ["hi"] (some "vid")).files ∧
      (manifestPath "d" (resolvedId "u/v.mp4" (some "vid")),
        .manifestFile m) ∈
        (transcribe_to_vtt_many
          (some fun _ => some { segments := [], text := "" }) none
          "u/v.mp4" "d" ["hi"] (some "vid")).files ∧
      "hi" ∈ m.langs :=
  claim1_translation_failure_degrades
    (some fun _ => some { segments := [], text := "" }) none "u/v.mp4" "d"
    ["hi"] (some "vid") "hi" [] 1 rfl (by decide) (by decide) (Or.inl rfl)

/-- Claim C7: if the ASR capability is unavailable or its transcription call
raises, the run propagates the failure and writes no track or manifest
file. -/
theorem claim7_asr_failure_propagates
    (w : Option (String → Option WhisperResult))
    (tr : Option (String → Option String)) (media d : String)
    (langs : List String) (vid : Option String)
    (hfail : w = none ∨ ∃ model, w = some model ∧ model media = none) :
    (transcribe_to_vtt_many w tr media d langs vid).files = [] ∧
    (transcribe_to_vtt_many w tr media d langs vid).result = .error () := by
  have hcore : ∃ k, transcribe_core w media = (.error (), k) := by
    rcases hfail with rfl | ⟨model, rfl, hm⟩
    · exact ⟨0, rfl⟩
    · refine ⟨1, ?_⟩
      simp only [transcribe_core]
      rw [hm]
  obtain ⟨k, hk⟩ := hcore
  rw [transcribe_to_vtt_many_err w tr media d langs vid k hk]
  exact ⟨rfl, rfl⟩

/-- Witness for C7: the whisper capability is absent. -/
theorem claim7_witness :
    (transcribe_to_vtt_many none none "u/v.mp4" "d" ["en", "hi"]
      (some "vid")).files = [] ∧
    (transcribe_to_vtt_many none none "u/v.mp4" "d" ["en", "hi"]
      (some "vid")).result = .error () :=
  claim7_asr_failure_propagates none none "u/v.mp4" "d" ["en", "hi"]
    (some "vid") (Or.inl rfl)

/-- Claim C8: with the ASR capability present, one run invokes it exactly
once, whatever the requested language list is. -/
theorem claim8_asr_called_once (model : String → Option WhisperResult)
    (tr : Option (String → Option String)) (media d : String)
    (langs : List String) (vid : Option String) :
    (transcribe_to_vtt_many (some model) tr media d langs vid).asrCalls = 1 := by
  cases hm : model media with
  | none =>
    have hcore : transcribe_core (some model) media = (.error (), 1) := by
      simp only [transcribe_core]
      rw [hm]
    rw [transcribe_to_vtt_many_err _ _ _ _ _ _ _ hcore]
  | some result =>
    have hcore : transcribe_core (some model) media =
        (.ok (if result.segments.isEmpty && result.text != "" then
          [{ start := 0, end_ := 1/100, text := result.text }]
        else result.segments), 1) := by
      simp only [transcribe_core]
      rw [hm]
    rw [transcribe_to_vtt_many_ok _ _ _ _ _ _ _ _ hcore]

/-- Claim C10: whenever transcription succeeds, exactly one manifest file is
written, it is the last file written, and its `langs` equal the keys of the
returned mapping; a request whose codes are all unsupported is skipped
silently, leaving an empty mapping and a manifest with empty `langs` as the
only file. -/
theorem claim10_manifest_unique_langs
    (w : Option (String → Option WhisperResult))
    (tr : Option (String → Option String)) (media d : String)
    (langs : List String) (vid : Option String)
    (out : List (String × String))
    (h : (transcribe_to_vtt_many w tr media d langs vid).result = .ok out) :
    ((transcribe_to_vtt_many w tr media d langs vid).files.countP
      fun f => f.2.isManifest) = 1 ∧
    (∃ m : Manifest,
      (transcribe_to_vtt_many w tr media d langs vid).files.getLast? =
        some (manifestPath d (resolvedId media vid), .manifestFile m) ∧
      m.langs = out.map Prod.fst) ∧
    ((∀ c ∈ langs, c ∉ SUPPORTED_LANGS) →
      out = [] ∧
      (transcribe_to_vtt_many w tr media d langs vid).files =
        [(manifestPath d (resolvedId media vid), .manifestFile
          { video_id := resolvedId media vid, media_file := basename media,
            langs := [] })]) := by
  rcases hcore : transcribe_core w media with ⟨res, k⟩
  cases res with
  | error e =>
    cases e
    rw [transcribe_to_vtt_many_err w tr media d langs vid k hcore] at h
    exact Except.noConfusion h
  | ok base =>
    rw [transcribe_to_vtt_many_ok w tr media d langs vid base k hcore] at h ⊢
    have hout : (langs.foldl (processLang tr base d (resolvedId media vid))
        { out := [], files := [] }).out = out := Except.ok.inj h
    refine ⟨?_, ⟨_, List.getLast?_concat _, ?_⟩, fun hall => ?_⟩
    · rw [List.countP_append, foldl_processLang_countP]
      simp [FileData.isManifest]
    · rw [← hout]
    · rw [foldl_processLang_unsupported tr base d _ langs _ hall] at hout ⊢
      exact ⟨hout.symm, rfl⟩

/-- Witness for C10: a run over `["en"]` with empty segments. -/
theorem claim10_witness :
    ((transcribe_to_vtt_many
        (some fun _ => some { segments := [], text := "" }) none
        "u/v.mp4" "d" ["en"] (some "v")).files.countP
      fun f => f.2.isManifest) = 1 ∧
    (∃ m : Manifest,
      (transcribe_to_vtt_many
          (some fun _ => some { segments := [], text := "" }) none
          "u/v.mp4" "d" ["en"] (some "v")).files.getLast? =
        some (manifestPath "d" (resolvedId "u/v.mp4" (some "v")),
          .manifestFile m) ∧
      m.langs = ([("en", trackPath "d" "v" "en")]).map Prod.fst) ∧
    ((∀ c ∈ (["en"] : List String), c ∉ SUPPORTED_LANGS) →
      ([("en", trackPath "d" "v" "en")] : List (String × String)) = [] ∧
      (transcribe_to_vtt_many
          (some fun _ => some { segments := [], text := "" }) none
          "u/v.mp4" "d" ["en"] (some "v")).files =
        [(manifestPath "d" (resolvedId "u/v.mp4" (some "v")), .manifestFile
          { video_id := resolvedId "u/v.mp4" (some "v"),
            media_file := basename "u/v.mp4", langs := [] })]) :=
  claim10_manifest_unique_langs
    (some fun _ => some { segments := [], text := "" }) none "u/v.mp4" "d"
    ["en"] (some "v") [("en", trackPath "d" "v" "en")] (by decide)

/-- `String.join` peels off its head summand. -/
theorem join_cons (x : String) (xs : List String) :
    String.join (x :: xs) = x ++ String.join xs := by
  cases x with
  | mk xd =>
    rw [String.join_eq, String.join_eq]
    rfl

/-- The serializer's write-loop, started from any prefix, appends the
concatenation of the per-segment blocks. -/
theorem vtt_foldl_shift :
    ∀ (l : List Seg) (a : String),
      l.foldl (fun acc seg => acc ++ vttBlock seg) a =
        a ++ String.join (l.map vttBlock) := by
  intro l
  induction l with
  | nil =>
    intro a
    rw [List.map_nil]
    show a = a ++ ""
    rw [String.append_empty]
  | cons s ss ih =>
    intro a
    rw [List.foldl_cons, ih, List.map_cons, join_cons, String.append_assoc]

/-- Claim C9: the serializer emits the `WEBVTT` header and a blank line, then
one block per segment in input order — timestamp range line, then the text
stripped and with `"-->"` replaced by `"→"`, then a blank separator — and on
scenario A's two segments produces exactly the expected file. -/
theorem claim9_vtt_structure :
    (∀ segs : List Seg,
      vtt_content segs =
        "WEBVTT\n\n" ++ String.join (segs.map fun seg =>
          format_timestamp seg.start ++ " --> " ++ format_timestamp seg.end_ ++
            "\n" ++ pyReplace (pyStrip seg.text) "-->" "→" ++ "\n\n")) ∧
    vtt_content
        [{ start := 0, end_ := 3/2, text := "hello" },
         { start := 3/2, end_ := 3, text := "world" }] =
      "WEBVTT\n\n00:00:00.000 --> 00:00:01.500\nhello\n\n00:00:01.500 --> 00:00:03.000\nworld\n\n" := by
  constructor
  · intro segs
    exact vtt_foldl_shift segs "WEBVTT\n\n"
  · simp only [vtt_content, List.foldl_cons, List.foldl_nil, vttBlock]
    rw [format_timestamp_zero, format_timestamp_three_halves,
      format_timestamp_three]
    decide

/-- Claim C6: the entry point's language parsing only ever yields supported
codes and never an empty list; an absent list or a list of only unrecognized
codes both fall back to the full supported set. -/
theorem claim6_parse_langs_fallback :
    (∀ x : Option String,
      (∀ c ∈ parse_langs x, c ∈ mainLangKeys) ∧ parse_langs x ≠ []) ∧
    parse_langs none = mainLangKeys ∧
    ∀ s : String, (∀ c ∈ (pySplit s ",").map pyStrip, c ∉ mainLangKeys) →
      parse_langs (some s) = mainLangKeys := by
  have hreq : ∀ requested : List String,
      (∀ c ∈ requested, c ∈ mainLangKeys) →
      (∀ c ∈ parseRequested requested, c ∈ mainLangKeys) ∧
        parseRequested requested ≠ [] := by
    intro requested hsub
    unfold parseRequested
    by_cases he : requested.isEmpty
    · rw [if_pos he]
      exact ⟨fun c hc => hc, by decide⟩
    · rw [if_neg he]
      refine ⟨hsub, fun hnil => he ?_⟩
      rw [hnil]
      rfl
  refine ⟨?_, rfl, ?_⟩
  · intro x
    cases x with
    | none => exact ⟨fun c hc => hc, by decide⟩
    | some s =>
      unfold parse_langs
      simp only [Option.getD_some]
      by_cases hs : s ≠ ""
      · rw [if_pos hs]
        refine hreq _ fun c hc => ?_
        simpa using (List.mem_filter.mp hc).2
      · rw [if_neg hs]
        exact ⟨fun c hc => hc, by decide⟩
  · intro s hall
    unfold parse_langs
    simp only [Option.getD_some]
    by_cases hs : s ≠ ""
    · rw [if_pos hs]
      have hfil : ((pySplit s ",").map pyStrip).filter
          (fun c => mainLangKeys.contains c) = [] := by
        rw [List.filter_eq_nil_iff]
        intro c hc
        simpa using hall c hc
      rw [hfil]
      rfl
    · rw [if_neg hs]

/-- Witness for C6: a request containing only unrecognized codes yields the
full supported set. -/
theorem claim6_witness :
    (∀ c ∈ (pySplit "xx,zz" ",").map pyStrip, c ∉ mainLangKeys) ∧
    parse_langs (some "xx,zz") = mainLangKeys :=
  ⟨by decide, claim6_parse_langs_fallback.2.2 "xx,zz" (by decide)⟩

end KSI
